import Mathlib

/-!
# Verification of the toki-backend messaging core

Shallow embedding of the message-delivery, read-receipt, mutation and
presence handlers of the toki backend (files `src/socket/handlers/messageHandler.js`,
`src/routes/messages.js`, `src/socket/index.js`), together with proofs of the
testable properties stated in the specification.

User ids, message ids, socket ids, correlation ids and timestamps are modelled
as `Nat`; message content as `String`.  The durable store is a `List Msg`;
handlers are pure functions from a state and an input payload to an updated
state and an ordered trace of emitted actions (callbacks, socket emissions and
the persistence step itself), mirroring the sequential order of the
JavaScript source.
-/

namespace Toki

/-- Model of JavaScript `String.prototype.trim`: removes whitespace from both
ends of the string (`content.trim()` in the handlers). -/
def jsTrim (s : String) : String :=
  ⟨((s.data.dropWhile Char.isWhitespace).reverse.dropWhile Char.isWhitespace).reverse⟩

/-- A row of the `messages` table (schema from the initial migration plus
`002_enhancements.sql`: soft-delete and edit-tracking columns). -/
structure Msg where
  id : Nat
  sender_id : Nat
  receiver_id : Nat
  content : String
  created_at : Nat
  is_read : Bool
  read_at : Option Nat
  is_edited : Bool
  edited_at : Option Nat
  original_content : Option String
  is_deleted : Bool
  deleted_at : Option Nat
deriving DecidableEq, Repr

/-- Server-side state visible to the socket handlers: the `users` table (ids
only), the `messages` table, the id the next `INSERT` returns, and the
`connectedUsers` map (`userId → socket.id`) as an association list. -/
structure ChatState where
  users : List Nat
  messages : List Msg
  nextId : Nat
  connected : List (Nat × Nat)
deriving DecidableEq, Repr

/-- Lookup modelling `connectedUsers.get(u)`: first (and, by the registry's set-semantics, only)
entry for `u`. -/
def lookupConn (c : List (Nat × Nat)) (u : Nat) : Option Nat :=
  (c.find? (fun p => p.1 == u)).map (·.2)

/-! ## send_message (socket/handlers/messageHandler.js, lines 20–100) -/

/-- Payload of the `send_message` event.  `none` models an absent (or, for
`content`, otherwise falsy) field, as tested by `!receiverId || !content`. -/
structure SendData where
  receiverId : Option Nat
  content : Option String
  tempId : Nat
deriving DecidableEq, Repr

/-- JavaScript falsiness of the `content` field: absent or the empty string. -/
def falsyContent : Option String → Bool
  | none => true
  | some s => s == ""

/-- One step the `send_message` handler performs, in source order:
`persist` is the awaited `INSERT`, `callbackError`/`callbackSuccess` the
acknowledgement callback, `emitError`/`emitSent` the emissions to the sender's
socket, `pushReceive` the `receive_message` push to the recipient's socket. -/
inductive SendAction where
  | persist (m : Msg)
  | callbackError (tempId : Nat) (err : String)
  | emitError (tempId : Nat) (err : String)
  | callbackSuccess (tempId : Nat) (m : Msg)
  | emitSent (tempId : Nat) (m : Msg)
  | pushReceive (sock : Nat) (m : Msg)
deriving DecidableEq, Repr

/-- The `send_message` handler.  Validation order as in the source:
missing fields, then empty trimmed content, then the length check on the
*untrimmed* content (`content.length > 5000`), then receiver existence;
on success the `INSERT` stores `content.trim()` and the acknowledgement and
push carry the persisted row. -/
def sendMessage (st : ChatState) (senderId : Nat) (d : SendData) (now : Nat) :
    ChatState × List SendAction :=
  if d.receiverId.isNone || falsyContent d.content then
    (st, [.callbackError d.tempId "Receiver ID and content are required",
          .emitError d.tempId "Receiver ID and content are required"])
  else
    let content := d.content.getD ""
    let receiverId := d.receiverId.getD 0
    if (jsTrim content).length == 0 then
      (st, [.callbackError d.tempId "Message content cannot be empty",
            .emitError d.tempId "Message content cannot be empty"])
    else if content.length > 5000 then
      (st, [.callbackError d.tempId "Message too long (max 5000 characters)",
            .emitError d.tempId "Message too long (max 5000 characters)"])
    else if !(st.users.contains receiverId) then
      (st, [.callbackError d.tempId "Recipient not found",
            .emitError d.tempId "Recipient not found"])
    else
      let row : Msg :=
        { id := st.nextId, sender_id := senderId, receiver_id := receiverId,
          content := jsTrim content, created_at := now,
          is_read := false, read_at := none, is_edited := false, edited_at := none,
          original_content := none, is_deleted := false, deleted_at := none }
      let st' := { st with messages := st.messages ++ [row], nextId := st.nextId + 1 }
      let push : List SendAction :=
        match lookupConn st.connected receiverId with
        | some sock => [.pushReceive sock row]
        | none => []
      (st', [.persist row, .callbackSuccess d.tempId row, .emitSent d.tempId row] ++ push)

/-- Is this action the persistence step? -/
def SendAction.isPersist : SendAction → Bool
  | .persist _ => true
  | _ => false

/-- Is this action an acknowledgement of success or a push to the recipient? -/
def SendAction.isAckOrPush : SendAction → Bool
  | .callbackSuccess _ _ => true
  | .emitSent _ _ => true
  | .pushReceive _ _ => true
  | _ => false

/-! ## mark_read (messageHandler.js lines 106–141; routes/messages.js lines 268–300)

Both paths run the same `UPDATE messages SET is_read = true, read_at = $1
WHERE id = ANY($2) AND receiver_id = $3 AND is_read = false`. -/

/-- The shared `UPDATE` of the read-receipt paths: every row whose id is among
`ids`, whose receiver is `readerId` and whose read flag is still false gets the
read flag and the single batch timestamp `readAt`; other rows are untouched. -/
def markRead (db : List Msg) (readerId : Nat) (ids : List Nat) (readAt : Nat) :
    List Msg :=
  db.map (fun m =>
    if ids.contains m.id && m.receiver_id == readerId && m.is_read == false then
      { m with is_read := true, read_at := some readAt }
    else m)

/-- Payload of the `mark_read` socket event.  `messageIds = none` models a
missing or non-array field (the `!messageIds || !Array.isArray(messageIds)`
test); `senderId = none` a falsy `senderId`. -/
structure MarkReadData where
  messageIds : Option (List Nat)
  senderId : Option Nat
deriving DecidableEq, Repr

/-- Outbound action of the `mark_read` handler: the `messages_read` emission to
the socket of the caller-supplied `senderId`. -/
inductive ReadAction where
  | messagesRead (sock : Nat) (messageIds : List Nat) (readAt : Nat) (readBy : Nat)
deriving DecidableEq, Repr

/-- The `mark_read` socket handler: bail out on a missing/empty id array, run
the `UPDATE`, then — regardless of how many rows the update changed — emit
`messages_read{messageIds, readAt, readBy}` to the socket registered for the
caller-supplied `senderId`, if any. -/
def markReadHandler (st : ChatState) (userId : Nat) (d : MarkReadData) (now : Nat) :
    ChatState × List ReadAction :=
  match d.messageIds with
  | none => (st, [])
  | some ids =>
    if ids.isEmpty then (st, [])
    else
      let st' := { st with messages := markRead st.messages userId ids now }
      let acts : List ReadAction :=
        match d.senderId with
        | none => []
        | some s =>
          match lookupConn st.connected s with
          | some sock => [.messagesRead sock ids now userId]
          | none => []
      (st', acts)

/-! ## get_history (messageHandler.js lines 147–204; routes/messages.js lines 109–189)

Both paths run the same query (conversation-pair filter, optional
`created_at < before` cursor, `ORDER BY created_at DESC LIMIT $n`) and then
apply identical post-processing to the returned rows.  The durable store's
query engine is an external collaborator (spec §6), so the model starts from
the row list it returns — descending in `created_at` and at most `limit` long
— and embeds the handler's post-processing. -/

/-- The shape of the `get_history` acknowledgement / REST response body. -/
structure HistoryResult where
  messages : List Msg
  hasMore : Bool
  nextCursor : Option Nat
deriving DecidableEq, Repr

/-- Post-processing of the history query's rows: `.reverse()` into ascending
order, `hasMore = rows.length === limit`, and `nextCursor` from the last row of
the descending list when `hasMore` (JS `rows[rows.length - 1]?.created_at`,
`undefined` on an empty list, else `null`). -/
def getHistoryFromRows (rows : List Msg) (limit : Nat) : HistoryResult :=
  { messages := rows.reverse
    hasMore := rows.length == limit
    nextCursor :=
      if rows.length == limit then rows.getLast?.map (·.created_at) else none }

/-- Rows are descending in `created_at` (the store's `ORDER BY created_at DESC`). -/
def SortedDesc (rows : List Msg) : Prop :=
  rows.Chain' (fun a b => b.created_at ≤ a.created_at)

/-- Rows are ascending in `created_at` (chronological display order). -/
def SortedAsc (rows : List Msg) : Prop :=
  rows.Chain' (fun a b => a.created_at ≤ b.created_at)

/-! ## REST edit / delete (routes/messages.js lines 307–355 and 362–437) -/

/-- Model of `SELECT ... FROM messages WHERE id = $1` (first matching row). -/
def findMsg (db : List Msg) (id : Nat) : Option Msg :=
  db.find? (fun m => m.id == id)

/-- Responses of the two REST message-mutation endpoints. -/
inductive RestResp where
  | okMsg (m : Msg)
  | okText (s : String)
  | badRequest (msg : String)
  | notFound (msg : String)
  | forbidden (msg : String)
deriving DecidableEq, Repr

/-- The row transformation of the REST edit's `UPDATE`: new trimmed content,
edit flags, and `original_content = COALESCE(original_content, $2)` where `$2`
is the content read by the preceding `SELECT`. -/
def applyRestEdit (fetched : String) (c : String) (now : Nat) (m : Msg) : Msg :=
  { m with content := jsTrim c, is_edited := true, edited_at := some now,
           original_content := some (m.original_content.getD fetched) }

/-- The endpoint `PUT /api/messages/message/:messageId`: content presence/emptiness check,
existence check, sender-only guard, deleted-state guard, then the `UPDATE ...
WHERE id = $3` with edit tracking, responding with the updated row. -/
def restEditMessage (db : List Msg) (userId : Nat) (messageId : Nat)
    (content : Option String) (now : Nat) : List Msg × RestResp :=
  if falsyContent content || (jsTrim (content.getD "")).length == 0 then
    (db, .badRequest "Message content is required")
  else
    let c := content.getD ""
    match findMsg db messageId with
    | none => (db, .notFound "Message not found")
    | some m =>
      if m.sender_id ≠ userId then
        (db, .forbidden "You can only edit your own messages")
      else if m.is_deleted then
        (db, .badRequest "Cannot edit a deleted message")
      else
        (db.map (fun r => if r.id == messageId then applyRestEdit m.content c now r else r),
         .okMsg (applyRestEdit m.content c now m))

/-- The endpoint `DELETE /api/messages/message/:messageId`: existence check, sender-only
guard, then the soft delete (`is_deleted`, `deleted_at`, tombstone content). -/
def restDeleteMessage (db : List Msg) (userId : Nat) (messageId : Nat) (now : Nat) :
    List Msg × RestResp :=
  match findMsg db messageId with
  | none => (db, .notFound "Message not found")
  | some m =>
    if m.sender_id ≠ userId then
      (db, .forbidden "You can only delete your own messages")
    else
      (db.map (fun r => if r.id == messageId then
          { r with is_deleted := true, deleted_at := some now, content := "[Message deleted]" }
        else r),
       .okText "Message deleted")

/-! ## edit_message socket handler (messageHandler.js lines 210–249) -/

/-- Payload of the `edit_message` socket event. -/
structure EditData where
  messageId : Nat
  content : String
  receiverId : Option Nat
deriving DecidableEq, Repr

/-- Outbound `message_updated` emissions of the socket edit path: to the
recipient's registered socket, and the echo back to the editing socket. -/
inductive EditAction where
  | emitUpdatedTo (sock : Nat) (id : Nat) (content : String) (senderId : Nat)
  | emitUpdatedSelf (id : Nat) (content : String) (senderId : Nat)
deriving DecidableEq, Repr

/-- The socket `edit_message` handler: a single `UPDATE messages SET content =
$1, is_edited = true, edited_at = NOW() WHERE id = $2 AND sender_id = $3` —
no trim, no deleted-state guard, no `original_content` write — followed, when
at least one row matched, by `message_updated` to the recipient's socket (if
registered) and an echo to the sender's own socket.  A non-matching update
(wrong sender, unknown id) emits nothing. -/
def socketEditMessage (st : ChatState) (userId : Nat) (d : EditData) (now : Nat) :
    ChatState × List EditAction :=
  let hit := st.messages.any (fun m => m.id == d.messageId && m.sender_id == userId)
  let msgs' := st.messages.map (fun m =>
    if m.id == d.messageId && m.sender_id == userId then
      { m with content := d.content, is_edited := true, edited_at := some now }
    else m)
  if hit then
    let pushTo : List EditAction :=
      match d.receiverId.bind (lookupConn st.connected) with
      | some sock => [.emitUpdatedTo sock d.messageId d.content userId]
      | none => []
    ({ st with messages := msgs' },
     pushTo ++ [.emitUpdatedSelf d.messageId d.content userId])
  else
    ({ st with messages := msgs' }, [])

/-! ## Connection handler (socket/index.js lines 25–51)

On a fresh connection the handler stores the socket in the registry,
broadcasts `user_online` to every other connected socket
(`socket.broadcast.emit`), wires the event handlers, and only then emits the
`connected` acknowledgement to the new socket. -/

/-- One step of the connection handler's straight-line body, in source order. -/
inductive ConnAction where
  | register (uid : Nat) (sid : Nat)
  | userOnline (toSock : Nat) (uid : Nat)
  | connectedAck (uid : Nat)
deriving DecidableEq, Repr

/-- The connection handler's action trace for a user `uid` on socket `sid`,
where `otherSockets` are the sockets of every other currently-registered
connection (the audience of `socket.broadcast.emit`). -/
def onConnection (otherSockets : List Nat) (uid : Nat) (sid : Nat) :
    List ConnAction :=
  [.register uid sid] ++ otherSockets.map (fun s => .userOnline s uid)
    ++ [.connectedAck uid]

/-! ## Concrete fixtures

Small concrete states and rows used to instantiate the theorems. -/

/-- A freshly inserted message row: the column defaults of the `messages`
table (`is_read false`, edit/delete columns null) around the inserted values. -/
def mkMsg (id sender receiver : Nat) (content : String) (createdAt : Nat) : Msg :=
  { id := id, sender_id := sender, receiver_id := receiver, content := content,
    created_at := createdAt, is_read := false, read_at := none, is_edited := false,
    edited_at := none, original_content := none, is_deleted := false, deleted_at := none }

/-- The row the successful `send_message` branch inserts. -/
def sentRow (st : ChatState) (senderId rid : Nat) (s : String) (now : Nat) : Msg :=
  mkMsg st.nextId senderId rid (jsTrim s) now

/-- A content string of raw length 5001 whose trimmed form is the single
character `a`: one non-whitespace character followed by 5000 spaces. -/
def longPadded : String := ⟨'a' :: List.replicate 5000 ' '⟩

/-- Two-user state with an empty message table. -/
def st0 : ChatState := { users := [2], messages := [], nextId := 1, connected := [] }

/-- State holding one un-edited, un-deleted message `v1` from user 1 to user 2. -/
def stV1 : ChatState :=
  { users := [1, 2], messages := [mkMsg 1 1 2 "v1" 5], nextId := 2, connected := [] }

/-- State holding one soft-deleted message from user 1 to user 2 (tombstone
content, `is_deleted` set), as left behind by the REST delete. -/
def stDel : ChatState :=
  { users := [1, 2],
    messages := [{ mkMsg 1 1 2 "[Message deleted]" 5 with
                    is_deleted := true, deleted_at := some 6 }],
    nextId := 2, connected := [] }

/-- State holding one message from user 1 to user 2 that is already read,
with user 1's socket registered. -/
def stRead : ChatState :=
  { users := [1, 2],
    messages := [{ mkMsg 1 1 2 "hello" 5 with is_read := true, read_at := some 6 }],
    nextId := 2, connected := [(1, 41)] }

/-- Two message rows between users 1 and 2, descending in `created_at`. -/
def rowsDesc : List Msg := [mkMsg 2 2 1 "second" 9, mkMsg 1 1 2 "first" 4]

/-! # Theorems -/

/-! ## Helper lemmas about `jsTrim` and the `send_message` branches -/

theorem jsTrim_empty : jsTrim "" = "" := rfl

theorem ne_empty_of_jsTrim_ne {s : String} (h : (jsTrim s).length ≠ 0) : s ≠ "" := by
  intro hs
  exact h (by simp [hs, jsTrim_empty])

theorem falsyContent_some {s : String} (h : s ≠ "") : falsyContent (some s) = false := by
  simp [falsyContent, h]

/-- Trimming a non-whitespace character followed by `n` spaces yields that
single character. -/
theorem jsTrim_pad (c : Char) (hc : ¬ c.isWhitespace = true) (n : Nat) :
    jsTrim ⟨c :: List.replicate n ' '⟩ = ⟨[c]⟩ := by
  have hws : ∀ x ∈ List.replicate n ' ', Char.isWhitespace x = true := by
    intro x hx
    rw [List.eq_of_mem_replicate hx]
    decide
  simp [jsTrim, List.dropWhile_cons_of_neg hc, List.dropWhile_append_of_pos hws]

theorem pad_length (c : Char) (n : Nat) :
    (String.mk (c :: List.replicate n ' ')).length = n + 1 := by
  simp [String.length]

theorem jsTrim_longPadded : jsTrim longPadded = "a" := jsTrim_pad 'a' (by decide) 5000

theorem longPadded_length : longPadded.length = 5001 := pad_length 'a' 5000

/-- Handling of `send_message` with a falsy `receiverId` or `content` field: rejected
with the missing-fields error, no state change. -/
theorem sendMessage_falsy_eq (st : ChatState) (senderId : Nat) (rid : Option Nat)
    (c : Option String) (tempId now : Nat) (h : (rid.isNone || falsyContent c) = true) :
    sendMessage st senderId ⟨rid, c, tempId⟩ now =
      (st, [.callbackError tempId "Receiver ID and content are required",
            .emitError tempId "Receiver ID and content are required"]) := by
  simp only [sendMessage, h, if_true]

/-- Handling of `send_message` whose content trims to the empty string: rejected with the
empty-content error, no state change. -/
theorem sendMessage_empty_eq (st : ChatState) (senderId : Nat) (rid : Nat) (s : String)
    (tempId now : Nat) (hs : s ≠ "") (h : (jsTrim s).length = 0) :
    sendMessage st senderId ⟨some rid, some s, tempId⟩ now =
      (st, [.callbackError tempId "Message content cannot be empty",
            .emitError tempId "Message content cannot be empty"]) := by
  simp [sendMessage, falsyContent_some hs, h]

/-- Handling of `send_message` whose raw (untrimmed) content length exceeds 5000: rejected with the
too-long error, no state change — the source checks `content.length`, not
`content.trim().length`. -/
theorem sendMessage_too_long_eq (st : ChatState) (senderId : Nat) (rid : Nat) (s : String)
    (tempId now : Nat) (h1 : (jsTrim s).length ≠ 0) (h2 : 5000 < s.length) :
    sendMessage st senderId ⟨some rid, some s, tempId⟩ now =
      (st, [.callbackError tempId "Message too long (max 5000 characters)",
            .emitError tempId "Message too long (max 5000 characters)"]) := by
  simp [sendMessage, falsyContent_some (ne_empty_of_jsTrim_ne h1), h1, h2]

/-- Handling of `send_message` to a receiver id not in the `users` table: rejected with
the not-found error, no state change. -/
theorem sendMessage_notfound_eq (st : ChatState) (senderId : Nat) (rid : Nat) (s : String)
    (tempId now : Nat) (h1 : (jsTrim s).length ≠ 0) (h2 : ¬ 5000 < s.length)
    (hr : rid ∉ st.users) :
    sendMessage st senderId ⟨some rid, some s, tempId⟩ now =
      (st, [.callbackError tempId "Recipient not found",
            .emitError tempId "Recipient not found"]) := by
  simp [sendMessage, falsyContent_some (ne_empty_of_jsTrim_ne h1), h1, h2, hr]

/-- The successful `send_message` branch: the trimmed row is appended to the
table, then acknowledged and emitted, then pushed when the receiver's socket
is registered. -/
theorem sendMessage_success_eq (st : ChatState) (senderId : Nat) (rid : Nat) (s : String)
    (tempId now : Nat) (h1 : (jsTrim s).length ≠ 0) (h2 : s.length ≤ 5000)
    (hr : rid ∈ st.users) :
    sendMessage st senderId ⟨some rid, some s, tempId⟩ now =
      ({ st with messages := st.messages ++ [sentRow st senderId rid s now],
                 nextId := st.nextId + 1 },
       [.persist (sentRow st senderId rid s now),
        .callbackSuccess tempId (sentRow st senderId rid s now),
        .emitSent tempId (sentRow st senderId rid s now)] ++
       (match lookupConn st.connected rid with
        | some sock => [.pushReceive sock (sentRow st senderId rid s now)]
        | none => [])) := by
  have h2' : ¬ (5000 < s.length) := by omega
  simp [sendMessage, falsyContent_some (ne_empty_of_jsTrim_ne h1), h1, h2',
        hr, sentRow, mkMsg]

/-! ## C1: send with valid trimmed content persists the trimmed row -/

/-- C1, counterexample. The claim's precondition only bounds the *trimmed*
length, but the handler checks the raw length (`content.length > 5000`).  For
the content `a` followed by 5000 spaces — trimmed length 1 ∈ (0, 5000], raw
length 5001, receiver 2 existing — `send` persists nothing and acknowledges
nothing. -/
theorem send_trim_window_cex :
    0 < (jsTrim longPadded).length ∧ (jsTrim longPadded).length ≤ 5000 ∧
    2 ∈ st0.users ∧
    (sendMessage st0 1 ⟨some 2, some longPadded, 7⟩ 3).1.messages = st0.messages ∧
    ∀ row, SendAction.callbackSuccess 7 row ∉
      (sendMessage st0 1 ⟨some 2, some longPadded, 7⟩ 3).2 := by
  have h := sendMessage_too_long_eq st0 1 2 longPadded 7 3
    (by rw [jsTrim_longPadded]; decide) (by rw [longPadded_length]; omega)
  refine ⟨by rw [jsTrim_longPadded]; decide, by rw [jsTrim_longPadded]; decide,
    by decide, by rw [h], ?_⟩
  intro row
  rw [h]
  simp

/-- C1 (amended). For every sender, receiver and content whose trimmed
length is positive and whose *raw* length is at most 5000 (the handler's
actual length check), with the receiver existing: `send` persists exactly one
message, its stored content is the trimmed input, and the sender's
acknowledgement (callback and `message_sent` emission) carries that row —
hence the trimmed content — together with the original `tempId`. -/
theorem send_valid_persists_ack (st : ChatState) (senderId rid : Nat) (s : String)
    (tempId now : Nat) (h1 : 0 < (jsTrim s).length) (h2 : s.length ≤ 5000)
    (hr : rid ∈ st.users) :
    ∃ row,
      (sendMessage st senderId ⟨some rid, some s, tempId⟩ now).1.messages
        = st.messages ++ [row] ∧
      row.content = jsTrim s ∧
      SendAction.callbackSuccess tempId row ∈
        (sendMessage st senderId ⟨some rid, some s, tempId⟩ now).2 ∧
      SendAction.emitSent tempId row ∈
        (sendMessage st senderId ⟨some rid, some s, tempId⟩ now).2 := by
  have h := sendMessage_success_eq st senderId rid s tempId now (by omega) h2 hr
  refine ⟨sentRow st senderId rid s now, by rw [h], by simp [sentRow, mkMsg], ?_, ?_⟩ <;>
    rw [h] <;> simp

/-- C1 witness. The amended theorem instantiated at the two-user state,
content `"hi"`. -/
theorem send_valid_persists_ack_witness :
    0 < (jsTrim "hi").length ∧ ("hi" : String).length ≤ 5000 ∧ 2 ∈ st0.users ∧
    ∃ row,
      (sendMessage st0 1 ⟨some 2, some "hi", 7⟩ 3).1.messages = st0.messages ++ [row] ∧
      row.content = jsTrim "hi" ∧
      SendAction.callbackSuccess 7 row ∈ (sendMessage st0 1 ⟨some 2, some "hi", 7⟩ 3).2 ∧
      SendAction.emitSent 7 row ∈ (sendMessage st0 1 ⟨some 2, some "hi", 7⟩ 3).2 :=
  ⟨by decide, by decide, by decide,
   send_valid_persists_ack st0 1 2 "hi" 7 3 (by decide) (by decide) (by decide)⟩

/-! ## C3: persistence precedes acknowledgement and push -/

/-- Every `send_message` trace either contains no persistence step (the
rejection branches) or starts with the persistence step, which occurs nowhere
else (the success branch). -/
theorem sendMessage_trace_persist_shape (st : ChatState) (senderId : Nat) (d : SendData)
    (now : Nat) :
    (∀ a ∈ (sendMessage st senderId d now).2, a.isPersist = false) ∨
    (∃ row rest, (sendMessage st senderId d now).2 = .persist row :: rest ∧
       ∀ a ∈ rest, a.isPersist = false) := by
  rcases d with ⟨rid?, c?, tempId⟩
  rcases rid? with _ | rid
  · rw [sendMessage_falsy_eq st senderId none c? tempId now (by simp)]
    left; simp [SendAction.isPersist]
  rcases c? with _ | s
  · rw [sendMessage_falsy_eq st senderId (some rid) none tempId now (by simp [falsyContent])]
    left; simp [SendAction.isPersist]
  by_cases hs : s = ""
  · rw [sendMessage_falsy_eq st senderId (some rid) (some s) tempId now
      (by simp [falsyContent, hs])]
    left; simp [SendAction.isPersist]
  by_cases h1 : (jsTrim s).length = 0
  · rw [sendMessage_empty_eq st senderId rid s tempId now hs h1]
    left; simp [SendAction.isPersist]
  by_cases h2 : 5000 < s.length
  · rw [sendMessage_too_long_eq st senderId rid s tempId now h1 h2]
    left; simp [SendAction.isPersist]
  by_cases hr : rid ∈ st.users
  · right
    have h := sendMessage_success_eq st senderId rid s tempId now h1 (by omega) hr
    rcases hm : lookupConn st.connected rid with _ | sock <;> rw [hm] at h <;> rw [h]
    · refine ⟨_, _, rfl, ?_⟩
      intro a ha
      simp only [List.append_eq, List.append_nil, List.cons_append, List.nil_append,
        List.mem_cons, List.not_mem_nil, or_false] at ha
      rcases ha with rfl | rfl <;> rfl
    · refine ⟨_, _, rfl, ?_⟩
      intro a ha
      simp only [List.append_eq, List.append_nil, List.cons_append, List.nil_append,
        List.mem_cons, List.not_mem_nil, or_false] at ha
      rcases ha with rfl | rfl | rfl <;> rfl
  · rw [sendMessage_notfound_eq st senderId rid s tempId now h1 h2 hr]
    left; simp [SendAction.isPersist]

/-- C3 (confirmed). In every `send_message` invocation the persistence
step strictly precedes every success acknowledgement (callback or
`message_sent` emission) and every `receive_message` push in the handler's
action order: if position `i` holds an acknowledgement-or-push and position
`j` holds the persistence step, then `j < i` — no acknowledgement or push
ever precedes persistence. -/
theorem send_persist_before_ack_push (st : ChatState) (senderId : Nat) (d : SendData)
    (now : Nat) (i j : Nat) (a b : SendAction)
    (ha : (sendMessage st senderId d now).2[i]? = some a)
    (hb : (sendMessage st senderId d now).2[j]? = some b)
    (hack : a.isAckOrPush = true) (hper : b.isPersist = true) : j < i := by
  rcases sendMessage_trace_persist_shape st senderId d now with hall | ⟨row, rest, heq, hrest⟩
  · have := hall b (List.getElem?_mem hb)
    rw [this] at hper
    exact absurd hper (by simp)
  · rw [heq] at ha hb
    have hj : j = 0 := by
      rcases j with _ | j'
      · rfl
      · rw [List.getElem?_cons_succ] at hb
        have := hrest b (List.getElem?_mem hb)
        rw [this] at hper
        exact absurd hper (by simp)
    subst hj
    rcases i with _ | i'
    · rw [List.getElem?_cons_zero] at ha
      cases ha
      exact absurd hack (by simp [SendAction.isPersist, SendAction.isAckOrPush])
    · omega

/-- C3 witness. On the concrete successful send of `"hi"`, the
acknowledgement at position 1 follows the persistence step at position 0. -/
theorem send_persist_before_ack_push_witness :
    (sendMessage st0 1 ⟨some 2, some "hi", 7⟩ 3).2[1]? =
        some (SendAction.callbackSuccess 7 (sentRow st0 1 2 "hi" 3)) ∧
    (sendMessage st0 1 ⟨some 2, some "hi", 7⟩ 3).2[0]? =
        some (SendAction.persist (sentRow st0 1 2 "hi" 3)) ∧
    0 < 1 :=
  ⟨by decide, by decide,
   send_persist_before_ack_push st0 1 ⟨some 2, some "hi", 7⟩ 3 1 0
     (SendAction.callbackSuccess 7 (sentRow st0 1 2 "hi" 3))
     (SendAction.persist (sentRow st0 1 2 "hi" 3))
     (by decide) (by decide) (by decide) (by decide)⟩

/-! ## C8: empty or oversized content persists nothing, error carries tempId -/

/-- C8 (confirmed). For every `send` invocation whose content trims to
length 0 or has length greater than 5000, the state (in particular the message
table) is unchanged and both the acknowledgement callback and the
`message_error` emission carry an error tagged with the original `tempId`. -/
theorem send_invalid_content_rejected (st : ChatState) (senderId : Nat)
    (rid : Option Nat) (s : String) (tempId now : Nat)
    (h : (jsTrim s).length = 0 ∨ 5000 < s.length) :
    (sendMessage st senderId ⟨rid, some s, tempId⟩ now).1 = st ∧
    ∃ e, SendAction.callbackError tempId e ∈ (sendMessage st senderId ⟨rid, some s, tempId⟩ now).2 ∧
      SendAction.emitError tempId e ∈ (sendMessage st senderId ⟨rid, some s, tempId⟩ now).2 := by
  rcases rid with _ | rid
  · rw [sendMessage_falsy_eq st senderId none (some s) tempId now (by simp)]
    exact ⟨rfl, "Receiver ID and content are required", by simp, by simp⟩
  by_cases hs : s = ""
  · rw [sendMessage_falsy_eq st senderId (some rid) (some s) tempId now
      (by simp [falsyContent, hs])]
    exact ⟨rfl, "Receiver ID and content are required", by simp, by simp⟩
  by_cases h1 : (jsTrim s).length = 0
  · rw [sendMessage_empty_eq st senderId rid s tempId now hs h1]
    exact ⟨rfl, "Message content cannot be empty", by simp, by simp⟩
  · have h2 : 5000 < s.length := h.resolve_left h1
    rw [sendMessage_too_long_eq st senderId rid s tempId now h1 h2]
    exact ⟨rfl, "Message too long (max 5000 characters)", by simp, by simp⟩

/-- C8 witness. The theorem instantiated at a whitespace-only content
string. -/
theorem send_invalid_content_rejected_witness :
    ((jsTrim " ").length = 0 ∨ 5000 < (" " : String).length) ∧
    (sendMessage st0 1 ⟨some 2, some " ", 9⟩ 3).1 = st0 ∧
    ∃ e, SendAction.callbackError 9 e ∈ (sendMessage st0 1 ⟨some 2, some " ", 9⟩ 3).2 ∧
      SendAction.emitError 9 e ∈ (sendMessage st0 1 ⟨some 2, some " ", 9⟩ 3).2 :=
  ⟨by decide, send_invalid_content_rejected st0 1 (some 2) " " 9 3 (by decide)⟩

/-! ## C4: markRead updates exactly the matching unread rows, idempotently -/

/-- C4 (confirmed): `markRead(readerId, messageIds)` — the shared `UPDATE`
of the socket `mark_read` handler and of `PUT /api/messages/read` — sets the
read flag and the single shared batch timestamp on exactly those rows whose id
is in `messageIds`, whose receiver is the reader and whose read flag is still
false; every other row is returned unchanged; and a second invocation with the
same ids (at any later timestamp `t2`) changes no row, leaving the first
call's read-at timestamps intact. -/
theorem markRead_exact_and_idempotent (db : List Msg) (r : Nat) (ids : List Nat)
    (t1 t2 : Nat) :
    (∀ (i : Nat) (m : Msg), db[i]? = some m →
       m.id ∈ ids → m.receiver_id = r → m.is_read = false →
       (markRead db r ids t1)[i]? = some { m with is_read := true, read_at := some t1 }) ∧
    (∀ (i : Nat) (m : Msg), db[i]? = some m →
       ¬(m.id ∈ ids ∧ m.receiver_id = r ∧ m.is_read = false) →
       (markRead db r ids t1)[i]? = some m) ∧
    markRead (markRead db r ids t1) r ids t2 = markRead db r ids t1 := by
  refine ⟨?_, ?_, ?_⟩
  · intro i m hm hid hrecv hread
    simp [markRead, List.getElem?_map, hm]
    intro h
    rw [hread] at h
    exact absurd (h hid hrecv) (by simp)
  · intro i m hm hnot
    simp [markRead, List.getElem?_map, hm]
    intro h1 h2 h3
    exact absurd ⟨h1, h2, h3⟩ hnot
  · unfold markRead
    rw [List.map_map]
    apply List.map_congr_left
    intro m _
    simp only [Function.comp_apply]
    by_cases hc : (ids.contains m.id && m.receiver_id == r && m.is_read == false) = true
    · rw [if_pos hc, if_neg (by simp)]
    · simp only [if_neg hc]

/-- C4 witness. One unread row for reader 2: the first call sets the flag
and timestamp 10; re-running at timestamp 20 changes nothing. -/
theorem markRead_exact_and_idempotent_witness :
    (markRead [mkMsg 1 1 2 "m" 5] 2 [1] 10)[0]? =
        some { mkMsg 1 1 2 "m" 5 with is_read := true, read_at := some 10 } ∧
    markRead (markRead [mkMsg 1 1 2 "m" 5] 2 [1] 10) 2 [1] 20 =
        markRead [mkMsg 1 1 2 "m" 5] 2 [1] 10 :=
  ⟨(markRead_exact_and_idempotent [mkMsg 1 1 2 "m" 5] 2 [1] 10 20).1 0 (mkMsg 1 1 2 "m" 5)
      (by decide) (by decide) (by decide) (by decide),
   (markRead_exact_and_idempotent [mkMsg 1 1 2 "m" 5] 2 [1] 10 20).2.2⟩

/-! ## Helper lemmas about the edit paths -/

/-- Finding a row by id after an id-preserving row update: the lookup yields the
updated image of the originally found row. -/
theorem findMsg_map (db : List Msg) (mid : Nat) (f : Msg → Msg)
    (hf : ∀ r, (f r).id = r.id) :
    findMsg (db.map f) mid = (findMsg db mid).map f := by
  unfold findMsg
  rw [List.find?_map]
  have hp : ((fun m : Msg => m.id == mid) ∘ f) = (fun m : Msg => m.id == mid) := by
    funext r
    simp [Function.comp, hf]
  rw [hp]

/-- The row updater of the REST edit preserves ids. -/
theorem restEditUpdater_id (mid : Nat) (fetched c : String) (now : Nat) (r : Msg) :
    ((if r.id == mid then applyRestEdit fetched c now r else r)).id = r.id := by
  by_cases h : (r.id == mid) = true <;> simp [h, applyRestEdit]

/-- The successful branch of the REST edit: valid content, row found, caller
is the sender, row not deleted — the table gets the updated row and the
response carries it. -/
theorem restEdit_success_eq (db : List Msg) (uid mid : Nat) (c : String) (now : Nat)
    (m : Msg) (hc : (jsTrim c).length ≠ 0) (hfind : findMsg db mid = some m)
    (hsender : m.sender_id = uid) (hdel : m.is_deleted = false) :
    restEditMessage db uid mid (some c) now =
      (db.map (fun r => if r.id == mid then applyRestEdit m.content c now r else r),
       .okMsg (applyRestEdit m.content c now m)) := by
  simp [restEditMessage, falsyContent_some (ne_empty_of_jsTrim_ne hc), hc,
        hfind, hsender, hdel]

/-! ## C2: original_content across two successive edits -/

/-- C2, counterexample.  The socket `edit_message` handler never writes
`original_content`.  Starting from a message whose content is `v1`, editing it
to `v2` through the live socket and then to `v3` through REST leaves the
stored `original_content` equal to `v2` — exactly the value the claim says it
can never hold — because the REST path's `COALESCE` then captures the
post-socket-edit content. -/
theorem edit_original_overwritten_cex :
    (findMsg stV1.messages 1).map (fun m => m.content) = some "v1" ∧
    (findMsg ((restEditMessage
        (socketEditMessage stV1 1 ⟨1, "v2", some 2⟩ 10).1.messages
        1 1 (some "v3") 11).1) 1).map (fun m => m.original_content)
      = some (some "v2") := by decide

/-- C2 (amended). On the REST edit path the pre-edit content is preserved
into `original_content` only on the first edit and never overwritten: two
successive REST edits leave `original_content` equal to the content the
message had before the first of them (more generally, to the already-stored
original when one exists).  The socket edit path never writes
`original_content` at all, so the two-edit property holds only when both
edits go through REST. -/
theorem restEdit_preserves_original (db : List Msg) (uid mid : Nat) (c1 c2 : String)
    (t1 t2 : Nat) (m : Msg) (hfind : findMsg db mid = some m)
    (hsender : m.sender_id = uid) (hdel : m.is_deleted = false)
    (hc1 : 0 < (jsTrim c1).length) (hc2 : 0 < (jsTrim c2).length) :
    ∃ m2, findMsg ((restEditMessage ((restEditMessage db uid mid (some c1) t1).1)
        uid mid (some c2) t2).1) mid = some m2 ∧
      m2.original_content = some (m.original_content.getD m.content) ∧
      m2.content = jsTrim c2 := by
  have hmid : (m.id == mid) = true :=
    List.find?_some (p := fun m : Msg => m.id == mid) (by simpa [findMsg] using hfind)
  have hmid2 : m.id = mid := by simpa using hmid
  rw [restEdit_success_eq db uid mid c1 t1 m (by omega) hfind hsender hdel]
  have hfind1 : findMsg (db.map (fun r => if r.id == mid then applyRestEdit m.content c1 t1 r else r)) mid
      = some (applyRestEdit m.content c1 t1 m) := by
    rw [findMsg_map db mid _ (restEditUpdater_id mid m.content c1 t1), hfind]
    simp [hmid2]
  rw [restEdit_success_eq _ uid mid c2 t2 (applyRestEdit m.content c1 t1 m) (by omega) hfind1
      (by simp [applyRestEdit, hsender]) (by simp [applyRestEdit, hdel])]
  have hfind2 : findMsg ((db.map (fun r => if r.id == mid then applyRestEdit m.content c1 t1 r else r)).map
        (fun r => if r.id == mid then applyRestEdit (applyRestEdit m.content c1 t1 m).content c2 t2 r else r)) mid
      = some (applyRestEdit (applyRestEdit m.content c1 t1 m).content c2 t2
          (applyRestEdit m.content c1 t1 m)) := by
    rw [findMsg_map _ mid _ (restEditUpdater_id mid (applyRestEdit m.content c1 t1 m).content c2 t2),
        hfind1]
    simp [hmid2, applyRestEdit]
  refine ⟨_, hfind2, ?_, ?_⟩
  · simp [applyRestEdit]
  · simp [applyRestEdit]

/-- C2 witness. Two REST edits of the `v1` message: the stored original is
`v1`, not the intermediate `v2`. -/
theorem restEdit_preserves_original_witness :
    ∃ m2, findMsg ((restEditMessage ((restEditMessage stV1.messages 1 1 (some "v2") 10).1)
        1 1 (some "v3") 11).1) 1 = some m2 ∧
      m2.original_content = some ((mkMsg 1 1 2 "v1" 5).original_content.getD
        (mkMsg 1 1 2 "v1" 5).content) ∧
      m2.content = jsTrim "v3" :=
  restEdit_preserves_original stV1.messages 1 1 "v2" "v3" 10 11 (mkMsg 1 1 2 "v1" 5)
    (by decide) (by decide) (by decide) (by decide) (by decide)

/-! ## C5: editing a soft-deleted message -/

/-- C5, counterexample. The socket `edit_message` handler has no
deleted-state guard: on a soft-deleted message (tombstone content,
`is_deleted` set) an edit by the sender goes through — the row is mutated to
the new content and `message_updated` is emitted, with no state error of any
kind. -/
theorem socketEdit_deleted_mutates_cex :
    stV1.messages.map (fun m => m.is_deleted) = [false] ∧
    stDel.messages.map (fun m => m.is_deleted) = [true] ∧
    (socketEditMessage stDel 1 ⟨1, "hacked", some 2⟩ 10).1.messages ≠ stDel.messages ∧
    (findMsg (socketEditMessage stDel 1 ⟨1, "hacked", some 2⟩ 10).1.messages 1).map
        (fun m => m.content) = some "hacked" ∧
    (socketEditMessage stDel 1 ⟨1, "hacked", some 2⟩ 10).2 ≠ [] := by decide

/-- C5 (amended). On the REST path only: editing a message that is already
soft-deleted fails with the state error 400 "Cannot edit a deleted message"
and leaves the message table untouched (the socket path, per the
counterexample, performs the edit unchecked). -/
theorem restEdit_deleted_state_error (db : List Msg) (uid mid : Nat) (c : String)
    (now : Nat) (m : Msg) (hc : 0 < (jsTrim c).length) (hfind : findMsg db mid = some m)
    (hsender : m.sender_id = uid) (hdel : m.is_deleted = true) :
    restEditMessage db uid mid (some c) now =
      (db, .badRequest "Cannot edit a deleted message") := by
  have hc' : (jsTrim c).length ≠ 0 := by omega
  simp [restEditMessage, falsyContent_some (ne_empty_of_jsTrim_ne hc'), hc',
        hfind, hsender, hdel]

/-- C5 witness. The REST edit of the concrete soft-deleted message is
rejected with the state error and no mutation. -/
theorem restEdit_deleted_state_error_witness :
    0 < (jsTrim "new text").length ∧
    (findMsg stDel.messages 1).map (fun m => m.is_deleted) = some true ∧
    restEditMessage stDel.messages 1 1 (some "new text") 12 =
      (stDel.messages, .badRequest "Cannot edit a deleted message") :=
  ⟨by decide, by decide,
   restEdit_deleted_state_error stDel.messages 1 1 "new text" 12
     ({ mkMsg 1 1 2 "[Message deleted]" 5 with is_deleted := true, deleted_at := some 6 })
     (by decide) (by decide) (by decide) (by decide)⟩

/-! ## C6: mutations by a non-sender -/

/-- C6, counterexample. A socket `edit_message` by a caller who is not the
message's sender leaves the state unmodified — but emits nothing at all: the
guarded `UPDATE` matches no row and the handler returns silently, so no
AuthorizationError (nor any other error) reaches the caller on this mutation
path. -/
theorem socketEdit_nonsender_silent_cex :
    (∀ m ∈ stV1.messages, m.id = 1 → m.sender_id ≠ 3) ∧
    (socketEditMessage stV1 3 ⟨1, "x", some 1⟩ 10).2 = [] ∧
    (socketEditMessage stV1 3 ⟨1, "x", some 1⟩ 10).1 = stV1 := by decide

/-- C6 (amended). A non-sender's mutation never modifies the message row
on any path, and on the two REST paths it fails with the 403 AuthorizationError
response; the socket edit path leaves the row unmodified but fails silently,
emitting no error. -/
theorem nonsender_mutations_rejected (db : List Msg) (st : ChatState) (uid mid : Nat)
    (c : String) (now : Nat) (d : EditData) :
    (∀ m, findMsg db mid = some m → m.sender_id ≠ uid →
       restDeleteMessage db uid mid now =
         (db, .forbidden "You can only delete your own messages")) ∧
    (∀ m, findMsg db mid = some m → m.sender_id ≠ uid → 0 < (jsTrim c).length →
       restEditMessage db uid mid (some c) now =
         (db, .forbidden "You can only edit your own messages")) ∧
    ((∀ m ∈ st.messages, m.id = d.messageId → m.sender_id ≠ uid) →
       socketEditMessage st uid d now = (st, [])) := by
  refine ⟨?_, ?_, ?_⟩
  · intro m hfind hsender
    simp [restDeleteMessage, hfind, hsender]
  · intro m hfind hsender hc
    have hc' : (jsTrim c).length ≠ 0 := by omega
    simp [restEditMessage, falsyContent_some (ne_empty_of_jsTrim_ne hc'), hc', hfind, hsender]
  · intro hno
    have hhit : st.messages.any (fun m => m.id == d.messageId && m.sender_id == uid) = false := by
      rw [List.any_eq_false]
      intro m hm
      simp only [Bool.and_eq_true, beq_iff_eq, not_and]
      intro hid
      exact hno m hm hid
    have hmap : st.messages.map (fun m =>
        if m.id = d.messageId ∧ m.sender_id = uid then
          { m with content := d.content, is_edited := true, edited_at := some now }
        else m) = st.messages := by
      conv_rhs => rw [← List.map_id st.messages]
      apply List.map_congr_left
      intro m hm
      rw [if_neg (fun h => hno m hm h.1 h.2)]
      rfl
    simp only [socketEditMessage, hhit, Bool.false_eq_true, if_false]
    simp only [beq_iff_eq, Bool.and_eq_true, decide_eq_true_eq]
    rw [hmap]

/-- C6 witness. User 3 (not the sender of message 1) is rejected with 403
on both REST paths and silently ignored on the socket path. -/
theorem nonsender_mutations_rejected_witness :
    restDeleteMessage stV1.messages 3 1 10 =
      (stV1.messages, .forbidden "You can only delete your own messages") ∧
    restEditMessage stV1.messages 3 1 (some "x") 10 =
      (stV1.messages, .forbidden "You can only edit your own messages") ∧
    socketEditMessage stV1 3 ⟨1, "x", some 2⟩ 10 = (stV1, []) :=
  ⟨(nonsender_mutations_rejected stV1.messages stV1 3 1 "x" 10 ⟨1, "x", some 2⟩).1
      (mkMsg 1 1 2 "v1" 5) (by decide) (by decide),
   (nonsender_mutations_rejected stV1.messages stV1 3 1 "x" 10 ⟨1, "x", some 2⟩).2.1
      (mkMsg 1 1 2 "v1" 5) (by decide) (by decide) (by decide),
   (nonsender_mutations_rejected stV1.messages stV1 3 1 "x" 10 ⟨1, "x", some 2⟩).2.2
      (by decide)⟩

/-! ## C7: get_history pagination -/

/-- Reversing a descending row list yields an ascending one. -/
theorem sortedDesc_reverse_asc (rows : List Msg) (h : SortedDesc rows) :
    SortedAsc rows.reverse := by
  unfold SortedAsc
  rw [List.chain'_reverse]
  exact h

/-- In a descending row list the last row has the minimal `created_at`. -/
theorem sortedDesc_getLast_min (rows : List Msg) :
    SortedDesc rows → ∀ m, rows.getLast? = some m →
      ∀ m' ∈ rows, m.created_at ≤ m'.created_at := by
  induction rows with
  | nil => intro _ m hm; simp at hm
  | cons a tl ih =>
    intro h m hlast m' hm'
    rcases tl with _ | ⟨b, tl2⟩
    · simp at hlast hm'
      subst hlast hm'
      exact le_refl _
    · have hcons := List.chain'_cons.mp h
      have hlast2 : (b :: tl2).getLast? = some m := by
        simpa using hlast
      rcases List.mem_cons.mp hm' with rfl | hm2
      · exact le_trans (ih hcons.2 m hlast2 b (List.mem_cons_self b tl2)) hcons.1
      · exact ih hcons.2 m hlast2 m' hm2

/-- C7 (confirmed). For rows returned by the history query (descending in
`created_at`, at most `limit` of them): the response holds at most `limit`
messages, in ascending chronological order; `hasMore` is true iff exactly
`limit` rows were returned; when `hasMore` is true (and the limit is
positive) `nextCursor` is the `created_at` of the chronologically oldest
returned message — the head of the ascending list, minimal among them; and
when `hasMore` is false `nextCursor` is absent. -/
theorem getHistory_pagination_spec (rows : List Msg) (limit : Nat)
    (hsort : SortedDesc rows) (hlen : rows.length ≤ limit) :
    (getHistoryFromRows rows limit).messages.length ≤ limit ∧
    SortedAsc (getHistoryFromRows rows limit).messages ∧
    ((getHistoryFromRows rows limit).hasMore = true ↔ rows.length = limit) ∧
    ((getHistoryFromRows rows limit).hasMore = true → 0 < limit →
       ∃ m, (getHistoryFromRows rows limit).messages.head? = some m ∧
         (getHistoryFromRows rows limit).nextCursor = some m.created_at ∧
         ∀ m' ∈ (getHistoryFromRows rows limit).messages, m.created_at ≤ m'.created_at) ∧
    ((getHistoryFromRows rows limit).hasMore = false →
       (getHistoryFromRows rows limit).nextCursor = none) := by
  refine ⟨by simpa [getHistoryFromRows] using hlen,
    sortedDesc_reverse_asc rows hsort, by simp [getHistoryFromRows], ?_, ?_⟩
  · intro hmore hpos
    have hlim : rows.length = limit := by
      simpa [getHistoryFromRows] using hmore
    have hne : rows ≠ [] := by
      intro hnil
      rw [hnil] at hlim
      simp at hlim
      omega
    rcases hl : rows.getLast? with _ | m
    · exact absurd (List.getLast?_eq_none_iff.mp hl) hne
    refine ⟨m, ?_, ?_, ?_⟩
    · simp [getHistoryFromRows, hl]
    · simp [getHistoryFromRows, hlim, hl]
    · intro m' hm'
      exact sortedDesc_getLast_min rows hsort m hl m'
        (by simpa [getHistoryFromRows] using hm')
  · intro hno
    have : (rows.length == limit) = false := by
      simpa [getHistoryFromRows] using hno
    simp [getHistoryFromRows, this]

/-- C7 witness. Two descending rows with `limit = 2`: both pagination
conclusions hold, with `nextCursor = 4`, the older row's timestamp. -/
theorem getHistory_pagination_spec_witness :
    SortedDesc rowsDesc ∧ rowsDesc.length ≤ 2 ∧
    ((getHistoryFromRows rowsDesc 2).messages.length ≤ 2 ∧
     SortedAsc (getHistoryFromRows rowsDesc 2).messages ∧
     ((getHistoryFromRows rowsDesc 2).hasMore = true ↔ rowsDesc.length = 2) ∧
     ((getHistoryFromRows rowsDesc 2).hasMore = true → 0 < 2 →
        ∃ m, (getHistoryFromRows rowsDesc 2).messages.head? = some m ∧
          (getHistoryFromRows rowsDesc 2).nextCursor = some m.created_at ∧
          ∀ m' ∈ (getHistoryFromRows rowsDesc 2).messages, m.created_at ≤ m'.created_at) ∧
     ((getHistoryFromRows rowsDesc 2).hasMore = false →
        (getHistoryFromRows rowsDesc 2).nextCursor = none)) :=
  by
  have hs : SortedDesc rowsDesc := by
    simp [SortedDesc, rowsDesc, mkMsg, List.chain'_cons]
  exact ⟨hs, by decide, getHistory_pagination_spec rowsDesc 2 hs (by decide)⟩

/-! ## C9: user_online reaches every other connection before the connected ack -/

/-- C9 (confirmed). In the connection handler's action order, the
`connected` acknowledgement to the new socket is the final action and occurs
nowhere earlier, while `user_online{X}` is sent to every other
currently-registered connection strictly before it (all of these emissions lie
in the trace's prefix preceding the acknowledgement). -/
theorem connect_user_online_before_ack (others : List Nat) (uid sid : Nat) :
    (onConnection others uid sid).getLast? = some (ConnAction.connectedAck uid) ∧
    (∀ s, s ∈ others →
       ConnAction.userOnline s uid ∈ (onConnection others uid sid).dropLast) ∧
    (∀ a ∈ (onConnection others uid sid).dropLast,
       ∀ u, a ≠ ConnAction.connectedAck u) := by
  have hform : onConnection others uid sid =
      (ConnAction.register uid sid :: others.map (fun s => ConnAction.userOnline s uid))
        ++ [ConnAction.connectedAck uid] := by
    simp [onConnection]
  refine ⟨?_, ?_, ?_⟩
  · rw [hform, List.getLast?_concat]
  · intro s hs
    rw [hform, List.dropLast_concat]
    exact List.mem_cons_of_mem _ (List.mem_map_of_mem _ hs)
  · intro a ha u
    rw [hform, List.dropLast_concat] at ha
    rcases List.mem_cons.mp ha with rfl | hmap
    · intro h; cases h
    · rcases List.mem_map.mp hmap with ⟨s, _, rfl⟩
      intro h; cases h

/-- C9 witness. With two other registered sockets (5 and 6), socket 5's
`user_online` emission lies strictly before the final `connected`
acknowledgement. -/
theorem connect_user_online_before_ack_witness :
    (5 ∈ ([5, 6] : List Nat)) ∧
    ConnAction.userOnline 5 1 ∈ (onConnection [5, 6] 1 9).dropLast ∧
    (onConnection [5, 6] 1 9).getLast? = some (ConnAction.connectedAck 1) :=
  ⟨by decide,
   (connect_user_online_before_ack [5, 6] 1 9).2.1 5 (by decide),
   (connect_user_online_before_ack [5, 6] 1 9).1⟩

/-! ## C10: mark_read emission is not guarded by the update's outcome -/

/-- C10 (confirmed). For every `mark_read` invocation with a non-empty
`messageIds` array whose caller-supplied `senderId` maps to a registered
connection, the handler emits exactly one `messages_read` event to that
connection, carrying the caller's full `messageIds` list and this
invocation's fresh read-at timestamp — for *every* state, including states in
which the `UPDATE` changes zero rows, since the emission is not conditioned on
the update's outcome. -/
theorem markRead_emission_unguarded (st : ChatState) (uid : Nat) (ids : List Nat)
    (sender sock now : Nat) (hne : ids ≠ [])
    (hsock : lookupConn st.connected sender = some sock) :
    (markReadHandler st uid ⟨some ids, some sender⟩ now).2 =
      [ReadAction.messagesRead sock ids now uid] := by
  simp [markReadHandler, hne, hsock]

/-- C10 witness. In the concrete state whose single message is already
read — so the update changes no row — the `messages_read` event is still
emitted to the sender's socket with the full id list and the new timestamp. -/
theorem markRead_emission_unguarded_witness :
    (([1] : List Nat) ≠ []) ∧
    lookupConn stRead.connected 1 = some 41 ∧
    markRead stRead.messages 2 [1] 20 = stRead.messages ∧
    (markReadHandler stRead 2 ⟨some [1], some 1⟩ 20).2 =
      [ReadAction.messagesRead 41 [1] 20 2] :=
  ⟨by decide, by decide, by decide,
   markRead_emission_unguarded stRead 2 [1] 1 41 20 (by decide) (by decide)⟩

end Toki
